import Mathlib

/-!
Shallow embedding of the tea-collection server (Express + zod + js-yaml)
and proofs about its specification claims.

Strings are manipulated at the `List Char` level where the JavaScript code
performs character-wise work (regular-expression style scanning, trimming,
lower-casing); JSON values carried by HTTP bodies are modelled by `JsValue`
with numbers as rationals (JavaScript numbers restricted to the values the
code actually stores and compares); file-system and network effects are
modelled by explicit parameters (the stored YAML document, a URL-parse
oracle, a JWT-verification oracle).
-/

namespace TeaApp

/-- JavaScript whitespace characters relevant to `trim` and `\s` for the
ASCII texts this server processes. -/
def isWsChar (c : Char) : Bool :=
  c = ' ' || c = '\t' || c = '\n' || c = '\r' || c = '\x0b' || c = '\x0c'

/-- Lower-case a character - ASCII lowering as performed by
`String.prototype.toLowerCase` on the ASCII texts involved. -/
def lowChar (c : Char) : Char := c.toLower

/-- `s.toLowerCase()` at the character-list level. -/
def lowerL (l : List Char) : List Char := l.map lowChar

/-- `s.trim()` at the character-list level. -/
def trimL (l : List Char) : List Char :=
  ((l.dropWhile isWsChar).reverse.dropWhile isWsChar).reverse

/-- `s.toLowerCase()` on `String`. -/
def jsLower (s : String) : String := (lowerL s.toList).asString

/-- `s.trim()` on `String`. -/
def jsTrim (s : String) : String := (trimL s.toList).asString

/-- Numeric value of a list of decimal digit characters
(`parseInt` on a nonempty all-digit string). -/
def natOfDigits (l : List Char) : Nat :=
  l.foldl (fun acc c => acc * 10 + (c.toNat - '0'.toNat)) 0

/-- JSON values as delivered by `express.json()` request bodies and as stored
in the YAML document (js-yaml loads plain scalars, sequences and maps). -/
inductive JsValue where
  | null : JsValue
  | bool (b : Bool) : JsValue
  | num (q : ℚ) : JsValue
  | str (s : String) : JsValue
  | arr (elems : List JsValue) : JsValue
  | obj (fields : List (String × JsValue)) : JsValue

/-- Field access `o[k]` on a JavaScript value: `none` models `undefined`
(missing key, or property access on a non-object). -/
def jsGet (v : JsValue) (k : String) : Option JsValue :=
  match v with
  | .obj fields => (fields.find? (fun p => p.1 == k)).map (·.2)
  | _ => none

/-- Object spread update `{...o, k: v}` (only the key-value view matters to
the schema parser, so the pair is re-inserted at the end). -/
def objSet (v : JsValue) (k : String) (x : JsValue) : JsValue :=
  match v with
  | .obj fields => .obj ((fields.filter (fun p => p.1 != k)) ++ [(k, x)])
  | _ => v

/-- JavaScript falsiness of a JSON value (`!v`). -/
def jsFalsy (v : JsValue) : Bool :=
  match v with
  | .null => true
  | .bool b => !b
  | .num q => q = 0
  | .str s => s = ""
  | _ => false

/-- `TEA_TYPES` from `shared/constants` (the canonical tea types, as listed
in `validTypes` in the server and in the `TeaTypeSchema` enum). -/
def TEA_TYPES : List String := ["Green", "Black", "PuEr", "Yellow", "White", "Oolong"]

/-- `CAFFEINE_LEVELS` from `shared/constants` (as recorded by the frontend
test suite: `['None', 'Low', 'Medium', 'High']`). -/
def CAFFEINE_LEVELS : List String := ["None", "Low", "Medium", "High"]

/-- `type.toLowerCase().trim()`, the key `normalizeTeaType` compares. -/
def normKey (type : String) : String := jsTrim (jsLower type)

/-- `normalizeTeaType` from the server: lower-case and trim the input, map
the recognised spellings to the canonical form, return anything else as-is. -/
def normalizeTeaType (type : String) : String :=
  if normKey type = "green" then "Green"
  else if normKey type = "black" then "Black"
  else if normKey type = "puer" ∨ normKey type = "pu-er" ∨ normKey type = "pu-erh" then "PuEr"
  else if normKey type = "yellow" then "Yellow"
  else if normKey type = "white" then "White"
  else if normKey type = "oolong" then "Oolong"
  else type

/-- A tea record, the shape produced by `TeaSchema.parse`.  `rating` is
`none` when the key is absent, `some none` when it is `null`, and
`some (some q)` for a number; `timesConsumed` is a natural number because
the schema enforces a non-negative integer; `lastConsumedDate` is `none`
for `null`. -/
structure Tea where
  id : String
  name : String
  type : String
  image : String
  steepTimes : List ℚ
  caffeine : String
  caffeineLevel : String
  website : String
  brewingTemperature : String
  teaWeight : String
  rating : Option (Option ℚ)
  timesConsumed : Nat
  lastConsumedDate : Option ℚ
  deriving DecidableEq, Repr

/-- The rating constraint of the schemas: when a number is present it lies
between 1 and 10. -/
def ratingOk (r : Option (Option ℚ)) : Bool :=
  match r with
  | some (some q) => decide (1 ≤ q) && decide (q ≤ 10)
  | _ => true

/-- The constraints of `TeaSchema` that the `Tea` record does not already
carry in its types: the type and caffeine-level enums and the rating range. -/
def teaValid (t : Tea) : Bool :=
  TEA_TYPES.contains t.type && CAFFEINE_LEVELS.contains t.caffeineLevel && ratingOk t.rating

/-- `z.string()` on a possibly-missing value. -/
def asStr : Option JsValue → Option String
  | some (.str s) => some s
  | _ => none

/-- Elementwise `z.number()` over the members of a JSON array. -/
def asNums : List JsValue → Option (List ℚ)
  | [] => some []
  | .num q :: rest => (asNums rest).map (q :: ·)
  | _ => none

/-- `z.array(z.number())`. -/
def parseSteepTimes : Option JsValue → Option (List ℚ)
  | some (.arr xs) => asNums xs
  | _ => none

/-- `z.string().optional().default(d)`. -/
def optStrD (v : Option JsValue) (d : String) : Option String :=
  match v with
  | none => some d
  | some (.str s) => some s
  | some _ => none

/-- `z.enum(vals)`. -/
def parseEnum (v : Option JsValue) (vals : List String) : Option String :=
  match v with
  | some (.str s) => if vals.contains s then some s else none
  | _ => none

/-- `z.enum(vals).optional().default(d)`. -/
def optEnumD (v : Option JsValue) (vals : List String) (d : String) : Option String :=
  match v with
  | none => some d
  | some (.str s) => if vals.contains s then some s else none
  | some _ => none

/-- `z.number().min(1).max(10).nullable().optional()`. -/
def parseRating (v : Option JsValue) : Option (Option (Option ℚ)) :=
  match v with
  | none => some none
  | some .null => some (some none)
  | some (.num q) => if 1 ≤ q ∧ q ≤ 10 then some (some (some q)) else none
  | some _ => none

/-- `z.number().int().min(0).optional().default(0)` (and, in `TeaSchema`,
`z.number().int().min(0).default(0)`): an integral non-negative number,
defaulting to 0 when the key is absent. -/
def parseTimesConsumed (v : Option JsValue) : Option Nat :=
  match v with
  | none => some 0
  | some (.num q) => if q.den = 1 ∧ 0 ≤ q then some q.num.toNat else none
  | some _ => none

/-- `z.number().nullable().default(null)` (also with `.optional()` in the
creation schema): absent and `null` both yield `null`. -/
def parseLastConsumed (v : Option JsValue) : Option (Option ℚ) :=
  match v with
  | none => some none
  | some .null => some none
  | some (.num q) => some (some q)
  | some _ => none

/-- The output of `CreateTeaSchema.parse`: all defaults applied. -/
structure CreateTea where
  name : String
  type : String
  image : String
  steepTimes : List ℚ
  caffeine : String
  caffeineLevel : String
  website : String
  brewingTemperature : String
  teaWeight : String
  rating : Option (Option ℚ)
  timesConsumed : Nat
  lastConsumedDate : Option ℚ
  deriving DecidableEq, Repr

/-- `CreateTeaSchema.parse` from `shared/types`: `none` models a thrown
`ZodError`.  Unknown keys are stripped (zod default object mode). -/
def parseCreateTea (v : JsValue) : Option CreateTea :=
  match v with
  | .obj _ => do
      let name ← asStr (jsGet v "name")
      let type ← parseEnum (jsGet v "type") TEA_TYPES
      let image ← asStr (jsGet v "image")
      let steepTimes ← parseSteepTimes (jsGet v "steepTimes")
      let caffeine ← optStrD (jsGet v "caffeine") ""
      let caffeineLevel ← optEnumD (jsGet v "caffeineLevel") CAFFEINE_LEVELS "Low"
      let website ← optStrD (jsGet v "website") ""
      let brewingTemperature ← optStrD (jsGet v "brewingTemperature") ""
      let teaWeight ← optStrD (jsGet v "teaWeight") ""
      let rating ← parseRating (jsGet v "rating")
      let timesConsumed ← parseTimesConsumed (jsGet v "timesConsumed")
      let lastConsumedDate ← parseLastConsumed (jsGet v "lastConsumedDate")
      some { name, type, image, steepTimes, caffeine, caffeineLevel, website,
             brewingTemperature, teaWeight, rating, timesConsumed, lastConsumedDate }
  | _ => none

/-- `TeaSchema.parse` from `shared/types`: like the creation schema but with
`id` required and the descriptive string fields and the caffeine level
mandatory. -/
def parseTea (v : JsValue) : Option Tea :=
  match v with
  | .obj _ => do
      let id ← asStr (jsGet v "id")
      let name ← asStr (jsGet v "name")
      let type ← parseEnum (jsGet v "type") TEA_TYPES
      let image ← asStr (jsGet v "image")
      let steepTimes ← parseSteepTimes (jsGet v "steepTimes")
      let caffeine ← asStr (jsGet v "caffeine")
      let caffeineLevel ← parseEnum (jsGet v "caffeineLevel") CAFFEINE_LEVELS
      let website ← asStr (jsGet v "website")
      let brewingTemperature ← asStr (jsGet v "brewingTemperature")
      let teaWeight ← asStr (jsGet v "teaWeight")
      let rating ← parseRating (jsGet v "rating")
      let timesConsumed ← parseTimesConsumed (jsGet v "timesConsumed")
      let lastConsumedDate ← parseLastConsumed (jsGet v "lastConsumedDate")
      some { id, name, type, image, steepTimes, caffeine, caffeineLevel, website,
             brewingTemperature, teaWeight, rating, timesConsumed, lastConsumedDate }
  | _ => none

/-- `z.array(TeaSchema)` over the members of the loaded YAML sequence. -/
def parseTeaList : List JsValue → Option (List Tea)
  | [] => some []
  | x :: rest => do
      let t ← parseTea x
      let ts ← parseTeaList rest
      some (t :: ts)

/-- `z.array(TeaSchema).parse` on the loaded YAML document. -/
def parseTeas (v : JsValue) : Option (List Tea) :=
  match v with
  | .arr xs => parseTeaList xs
  | _ => none

/-- The `rating` key of the dumped object: omitted when the field was absent
(zod optional key), `null` or a number otherwise. -/
def ratingFields (r : Option (Option ℚ)) : List (String × JsValue) :=
  match r with
  | none => []
  | some none => [("rating", .null)]
  | some (some q) => [("rating", .num q)]

/-- The YAML document node for one tea record, as `yaml.dump` serialises the
object produced by `TeaSchema.parse` (keys in schema order). -/
def teaToValue (t : Tea) : JsValue :=
  .obj ([("id", .str t.id), ("name", .str t.name), ("type", .str t.type),
    ("image", .str t.image), ("steepTimes", .arr (t.steepTimes.map .num)),
    ("caffeine", .str t.caffeine), ("caffeineLevel", .str t.caffeineLevel),
    ("website", .str t.website), ("brewingTemperature", .str t.brewingTemperature),
    ("teaWeight", .str t.teaWeight)] ++ ratingFields t.rating ++
    [("timesConsumed", .num (t.timesConsumed : ℚ)),
     ("lastConsumedDate", match t.lastConsumedDate with | none => JsValue.null | some q => .num q)])

/-- `writeTeas` at the document level: `yaml.dump` of the collection followed
by `yaml.load` recovers this document (js-yaml faithfully round-trips the
JSON-like documents the server stores), so the store is modelled as holding
the dumped document itself. -/
def writeTeasDoc (teas : List Tea) : JsValue :=
  .arr (teas.map teaToValue)

/-- `readTeas`: an absent data file yields the empty collection; otherwise
the loaded document is validated with `z.array(TeaSchema)`, and a validation
failure raises (`Except.error`). -/
def readTeas (store : Option JsValue) : Except Unit (List Tea) :=
  match store with
  | none => .ok []
  | some v =>
      match parseTeas v with
      | some ts => .ok ts
      | none => .error ()

/-- `GET /api/teas`: the collection on success, 500 when the file is
unreadable or fails validation. -/
def getTeas (store : Option JsValue) : Nat × List Tea :=
  match readTeas store with
  | .ok ts => (200, ts)
  | .error _ => (500, [])

/-- The new record built in `POST /api/teas`: the parsed creation data plus
the generated id (the `?? 0` / `?? null` fallbacks in the route are no-ops
because the schema has already applied those defaults). -/
def mkNewTea (d : CreateTea) (newId : String) : Tea :=
  { id := newId, name := d.name, type := d.type, image := d.image,
    steepTimes := d.steepTimes, caffeine := d.caffeine, caffeineLevel := d.caffeineLevel,
    website := d.website, brewingTemperature := d.brewingTemperature, teaWeight := d.teaWeight,
    rating := d.rating, timesConsumed := d.timesConsumed, lastConsumedDate := d.lastConsumedDate }

/-- `POST /api/teas` on a successfully read collection (`body = none`
models a request with no parsed body, which is falsy).  Accessing
`req.body.type` on a body without a string there makes
`normalizeTeaType` throw `TypeError` (`type.toLowerCase` is not a
function), which the route's outer catch turns into a 500. -/
def postTeas (teas : List Tea) (body : Option JsValue) (newId : String) : Nat × List Tea :=
  match body with
  | none => (400, teas)
  | some b =>
      if jsFalsy b then (400, teas)
      else
        match jsGet b "type" with
        | some (.str s) =>
            match parseCreateTea (objSet b "type" (.str (normalizeTeaType s))) with
            | some d => (201, teas ++ [mkNewTea d newId])
            | none => (400, teas)
        | _ => (500, teas)

/-- `DELETE /api/teas/:id` on a successfully read collection. -/
def deleteTea (teas : List Tea) (id : String) : Nat × List Tea :=
  if id = "" then (400, teas)
  else
    match teas.find? (fun t => t.id == id) with
    | none => (404, teas)
    | some _ => (204, teas.filter (fun t => t.id != id))

/-- `existingTea.timesConsumed || 0` (after schema validation the field is a
non-negative integer, so this is the identity). -/
def jsOrZero (n : Nat) : Nat :=
  if n = 0 then 0 else n

/-- `PUT /api/teas/:id/lastConsumed` on a successfully read collection:
find the tea, bump its consumption count, stamp the date, re-validate
against `TeaSchema` and store. -/
def putLastConsumed (teas : List Tea) (id : String) (now : ℚ) : Nat × List Tea :=
  if id = "" then (400, teas)
  else
    match teas.findIdx? (fun t => t.id == id) with
    | none => (404, teas)
    | some i =>
        match teas[i]? with
        | none => (404, teas)
        | some t =>
            let u : Tea := { t with timesConsumed := jsOrZero t.timesConsumed + 1,
                                    lastConsumedDate := some now }
            if teaValid u then (200, teas.set i u) else (400, teas)

/-- Outcome of `jwt.verify`: success, `TokenExpiredError`,
`JsonWebTokenError` (bad signature or malformed token), or any other
exception (e.g. missing auth configuration). -/
inductive VerifyResult where
  | ok (username : String)
  | expired
  | invalid
  | err
  deriving DecidableEq, Repr

/-- What the auth middleware does with a request: call `next()` or answer
with a status without running the route. -/
inductive AuthOutcome where
  | proceed (username : String)
  | reject (status : Nat)
  deriving DecidableEq, Repr

/-- `s.startsWith(p)` (string prefix test, at the character level). -/
def strStartsWith (s p : String) : Bool :=
  p.toList.isPrefixOf s.toList

/-- `s.substring(n)` for an ASCII prefix of length `n`. -/
def strDropChars (s : String) (n : Nat) : String :=
  (s.toList.drop n).asString

/-- `requireAuth` from `server/auth.ts`, with `jwt.verify` as an oracle. -/
def requireAuth (authHeader : Option String) (verify : String → VerifyResult) : AuthOutcome :=
  match authHeader with
  | none => .reject 401
  | some h =>
      if h = "" ∨ ¬ strStartsWith h "Bearer " then .reject 401
      else
        match verify (strDropChars h 7) with
        | .ok u => .proceed u
        | .expired => .reject 401
        | .invalid => .reject 401
        | .err => .reject 500

/-- Express mount-path matching for `app.use('/api', requireAuth)`. -/
def underApi (path : String) : Bool :=
  path = "/api" || strStartsWith path "/api/"

/-- Request dispatch as the middleware stack orders it: the login route is
registered before the auth gate; every other `/api` path passes through
`requireAuth` before its handler touches the stored collection; non-API
paths serve static content. -/
def apiDispatch (path : String) (authHeader : Option String)
    (verify : String → VerifyResult) (loginStatus : Nat)
    (handler : List Tea → Nat × List Tea) (teas : List Tea) : Nat × List Tea :=
  if path = "/api/auth/login" then (loginStatus, teas)
  else if underApi path then
    match requireAuth authHeader verify with
    | .reject s => (s, teas)
    | .proceed _ => handler teas
  else (200, teas)

/-- The protocol and hostname of a parsed URL (`new URL(url)`), supplied by
a parse oracle; `none` models the constructor throwing. -/
structure ParsedURL where
  protocol : String
  hostname : String
  deriving DecidableEq, Repr

/-- The regex `^172\.(1[6-9]|2[0-9]|3[01])\.` from `isPrivateIP`. -/
def matches172 : List Char → Bool
  | '1' :: '7' :: '2' :: '.' :: c1 :: c2 :: '.' :: _ =>
      (c1 == '1' && ('6' ≤ c2 && c2 ≤ '9')) ||
      (c1 == '2' && c2.isDigit) ||
      (c1 == '3' && (c2 == '0' || c2 == '1'))
  | _ => false

/-- `isPrivateIP` from the server: localhost aliases, the private/loopback
IPv4 prefix patterns, and the IPv6 loopback/unique-local checks. -/
def isPrivateIP (hostname : String) : Bool :=
  if hostname = "localhost" ∨ hostname = "localhost.localdomain" then true
  else if "127.".toList.isPrefixOf hostname.toList ∨ "10.".toList.isPrefixOf hostname.toList
      ∨ matches172 hostname.toList ∨ "192.168.".toList.isPrefixOf hostname.toList
      ∨ "169.254.".toList.isPrefixOf hostname.toList then true
  else if hostname = "::1" ∨ hostname = "::" ∨ "fc".toList.isPrefixOf hostname.toList
      ∨ "fd".toList.isPrefixOf hostname.toList then true
  else false

/-- The protocol and hostname checks `validateURLForSSRF` performs on a
successfully parsed URL. -/
def hostCheck (p : ParsedURL) : Bool :=
  if ¬ (p.protocol = "http:" ∨ p.protocol = "https:") then false
  else if p.hostname = "" then false
  else if isPrivateIP p.hostname then false
  else true

/-- `validateURLForSSRF` from the server, with `new URL` as an oracle: the
`url` value must be a non-empty, non-blank string that parses to an
http/https URL with a non-empty, non-private hostname. -/
def validateURLForSSRF (url : Option JsValue) (parseURL : String → Option ParsedURL) : Bool :=
  match url with
  | some (.str s) =>
      if s = "" ∨ jsTrim s = "" then false
      else
        match parseURL s with
        | none => false
        | some p => hostCheck p
  | _ => false

/-- The SSRF gate of `POST /api/teas/import`: when validation fails the
route answers 400 before any outbound request; otherwise the fetch is
performed and the rest of the pipeline determines the status
(abstracted as `fetchStatus`).  The boolean records whether `axios.get`
was reached. -/
def importRequest (body : JsValue) (parseURL : String → Option ParsedURL)
    (fetchStatus : Nat) : Nat × Bool :=
  if validateURLForSSRF (jsGet body "url") parseURL then (fetchStatus, true)
  else (400, false)

/-- Consume a literal pattern prefix, returning the remainder. -/
def eatLit : List Char → List Char → Option (List Char)
  | [], l => some l
  | c :: cs, x :: xs => if x == c then eatLit cs xs else none
  | _ :: _, [] => none

/-- Consume `\s+` (the following pattern characters can never match a
whitespace character, so the greedy run needs no backtracking). -/
def eatWsPlus (l : List Char) : Option (List Char) :=
  match l with
  | c :: rest => if isWsChar c then some (rest.dropWhile isWsChar) else none
  | [] => none

/-- Consume `(\d+)` and return its `parseInt` value (greedy; the pattern
characters that follow are never digits, so no backtracking arises). -/
def eatDigits (l : List Char) : Option (Nat × List Char) :=
  let ds := l.takeWhile Char.isDigit
  if ds.isEmpty then none
  else some (natOfDigits ds, l.dropWhile Char.isDigit)

/-- Match `less\s+than\s+(\d+)\s*%` anchored at the current position. -/
def matchLessAt (l : List Char) : Option Nat := do
  let r1 ← eatLit "less".toList l
  let r2 ← eatWsPlus r1
  let r3 ← eatLit "than".toList r2
  let r4 ← eatWsPlus r3
  let (n, r5) ← eatDigits r4
  match r5.dropWhile isWsChar with
  | '%' :: _ => some n
  | _ => none

/-- `text.match(/less\s+than\s+(\d+)\s*%/)`: the captured number of the
leftmost match. -/
def findLess : List Char → Option Nat
  | [] => none
  | c :: rest =>
      match matchLessAt (c :: rest) with
      | some n => some n
      | none => findLess rest

/-- Match `about\s+(\d+)\s*%` anchored at the current position. -/
def matchAboutAt (l : List Char) : Option Nat := do
  let r1 ← eatLit "about".toList l
  let r2 ← eatWsPlus r1
  let (n, r3) ← eatDigits r2
  match r3.dropWhile isWsChar with
  | '%' :: _ => some n
  | _ => none

/-- Match `(\d+)\s*%` anchored at the current position. -/
def matchPctAt (l : List Char) : Option Nat := do
  let (n, r) ← eatDigits l
  match r.dropWhile isWsChar with
  | '%' :: _ => some n
  | _ => none

/-- `text.match(/about\s+(\d+)\s*%|(\d+)\s*%/)` with the subsequent
`parseInt(match[1] || match[2])`: the number captured by the leftmost
match, trying the `about` alternative first at each position. -/
def findPercent : List Char → Option Nat
  | [] => none
  | c :: rest =>
      match matchAboutAt (c :: rest) with
      | some n => some n
      | none =>
          match matchPctAt (c :: rest) with
          | some n => some n
          | none => findPercent rest

/-- `text.indexOf(pat)` on character lists (`none` for `-1`). -/
def indexOfSub (pat : List Char) : List Char → Option Nat
  | [] => if pat.isPrefixOf ([] : List Char) then some 0 else none
  | c :: rest =>
      if pat.isPrefixOf (c :: rest) then some 0
      else (indexOfSub pat rest).map (· + 1)

/-- `text.includes(pat)`. -/
def containsSub (pat text : List Char) : Bool :=
  (indexOfSub pat text).isSome

/-- The caffeine-level classifier of the import pipeline: percentage
patterns first (`less than X%`, then `about X%` / plain `X%`), keyword
fallback, default `Low`. -/
def caffeineLevel (caffeine : String) : String :=
  let text := lowerL caffeine.toList
  match findLess text with
  | some percentage =>
      if percentage ≤ 10 then "Low"
      else if percentage ≤ 25 then "Medium"
      else "High"
  | none =>
      match findPercent text with
      | some percentage =>
          if percentage < 10 then "Low"
          else if percentage < 25 then "Medium"
          else "High"
      | none =>
          if containsSub "high".toList text then "High"
          else if containsSub "low".toList text then "Low"
          else if containsSub "medium".toList text || containsSub "moderate".toList text then "Medium"
          else "Low"

/-- One attempt of the global regex `/(\d+)\s*s/gi` at the current
position: digits, optional whitespace, then `s` or `S`; on success also
return the remainder after the match. -/
def matchNumS (l : List Char) : Option (Nat × List Char) :=
  match eatDigits l with
  | none => none
  | some (n, r) =>
      match r.dropWhile isWsChar with
      | c :: tail => if c == 's' || c == 'S' then some (n, tail) else none
      | [] => none

/-- All matches of the global regex `/(\d+)\s*s/gi`, scanning left to
right and resuming after each match (fuel is the text length; every step
consumes at least one character, so it never runs out). -/
def scanNumsFuel : Nat → List Char → List Nat
  | 0, _ => []
  | _ + 1, [] => []
  | fuel + 1, c :: rest =>
      match matchNumS (c :: rest) with
      | some (n, tail) => n :: scanNumsFuel fuel tail
      | none => scanNumsFuel fuel rest

/-- `numberSequence.match(/(\d+)\s*s/gi)` with `parseInt` applied to each
match. -/
def scanNums (l : List Char) : List Nat := scanNumsFuel l.length l

/-- An ASCII letter, as matched case-insensitively by `[a-z]`. -/
def isAsciiAlpha (c : Char) : Bool :=
  ('a' ≤ c && c ≤ 'z') || ('A' ≤ c && c ≤ 'Z')

/-- `firstLine.replace(/^[a-z]+\s*,\s*/i, '')`: drop a leading word
followed by a comma (e.g. `rinse, 5s, 10s`). -/
def stripLeadingWordComma (l : List Char) : List Char :=
  let letters := l.takeWhile isAsciiAlpha
  if letters.isEmpty then l
  else
    match (l.dropWhile isAsciiAlpha).dropWhile isWsChar with
    | ',' :: r2 => r2.dropWhile isWsChar
    | _ => l

/-- Steep-time extraction from the brewing-table cell whose text contains
`steeps`: take the text after `steeps:`, keep its first line, strip a
leading word-comma prefix, collect the `/(\d+)\s*s/gi` matches, and keep
those between 3 and 999. -/
def extractSteepTimesFromTd (tdText : List Char) : List Nat :=
  match indexOfSub "steeps:".toList (lowerL tdText) with
  | none => []
  | some i =>
      (scanNums (stripLeadingWordComma
        (trimL ((tdText.drop (i + 7)).takeWhile (fun c => c != '\n'))))).filter
        (fun n => 3 ≤ n && n ≤ 999)

/-- The `steepTimes` field of a successful import response: the numbers
extracted from the steeps cell (empty when no brewing table or no such
cell was found), sorted ascending by `steepTimes.sort((a, b) => a - b)`. -/
def importSteepTimes (steepsTd : Option (List Char)) : List Nat :=
  (match steepsTd with
   | none => []
   | some td => extractSteepTimesFromTd td).mergeSort (· ≤ ·)

/-! ## Helper lemmas -/

theorem jsOrZero_eq (n : Nat) : jsOrZero n = n := by
  unfold jsOrZero; split <;> omega

/-! ## Claim theorems -/

/-- C10: `normalizeTeaType` is idempotent; every string whose
lower-cased, trimmed form is one of the recognised spellings (the six
canonical names and the `puer`/`pu-er`/`pu-erh` variants) maps to the
corresponding canonical value; every other string is returned unchanged. -/
theorem C10_normalizeTeaType_idempotent_canonical (s : String) :
    normalizeTeaType (normalizeTeaType s) = normalizeTeaType s
    ∧ (normKey s = "green" → normalizeTeaType s = "Green")
    ∧ (normKey s = "black" → normalizeTeaType s = "Black")
    ∧ ((normKey s = "puer" ∨ normKey s = "pu-er" ∨ normKey s = "pu-erh") →
        normalizeTeaType s = "PuEr")
    ∧ (normKey s = "yellow" → normalizeTeaType s = "Yellow")
    ∧ (normKey s = "white" → normalizeTeaType s = "White")
    ∧ (normKey s = "oolong" → normalizeTeaType s = "Oolong")
    ∧ (normKey s ∉ (["green", "black", "puer", "pu-er", "pu-erh",
          "yellow", "white", "oolong"] : List String) →
        normalizeTeaType s = s) := by
  have hout : normalizeTeaType s = "Green" ∨ normalizeTeaType s = "Black"
      ∨ normalizeTeaType s = "PuEr" ∨ normalizeTeaType s = "Yellow"
      ∨ normalizeTeaType s = "White" ∨ normalizeTeaType s = "Oolong"
      ∨ normalizeTeaType s = s := by
    unfold normalizeTeaType; split_ifs <;> tauto
  refine ⟨?_, ?_, ?_, ?_, ?_, ?_, ?_, ?_⟩
  · rcases hout with h | h | h | h | h | h | h <;> rw [h]
    · decide
    · decide
    · decide
    · decide
    · decide
    · decide
    · exact h
  · intro h; simp [normalizeTeaType, h]
  · intro h; simp [normalizeTeaType, h]
  · rcases Classical.em (normKey s = "green") with hg | hg
    · intro h; rcases h with h | h | h <;> simp [hg] at h
    · intro h; rcases h with h | h | h <;> simp [normalizeTeaType, h]
  · intro h; simp [normalizeTeaType, h]
  · intro h; simp [normalizeTeaType, h]
  · intro h; simp [normalizeTeaType, h]
  · intro h
    simp only [List.mem_cons, List.not_mem_nil, or_false, not_or] at h
    obtain ⟨h1, h2, h3, h4, h5, h6, h7, h8⟩ := h
    simp [normalizeTeaType, h1, h2, h3, h4, h5, h6, h7, h8]

/-- C10 witness: a padded upper-case `pu-erh` variant normalises to `PuEr`
and the result is a fixed point. -/
theorem C10_witness :
    normalizeTeaType (normalizeTeaType "  PU-ERH ") = normalizeTeaType "  PU-ERH "
    ∧ normalizeTeaType "  PU-ERH " = "PuEr" :=
  ⟨(C10_normalizeTeaType_idempotent_canonical "  PU-ERH ").1,
   (C10_normalizeTeaType_idempotent_canonical "  PU-ERH ").2.2.2.1
     (Or.inr (Or.inr (by decide)))⟩

/-- C8: when the YAML data file does not exist, `readTeas` returns the
empty collection instead of raising, and `GET /api/teas` answers 200 with
the empty list. -/
theorem C8_readTeas_missing_file :
    readTeas none = Except.ok ([] : List Tea)
    ∧ getTeas none = (200, ([] : List Tea)) :=
  ⟨rfl, rfl⟩

/-- C6: `DELETE /api/teas/:id` answers 204 and stores the old collection
with every tea of that id removed (in order) when a tea matches, and
answers 404 leaving the collection unchanged when none matches. -/
theorem C6_deleteTea_spec (teas : List Tea) (id : String) (hid : id ≠ "") :
    ((∃ t ∈ teas, t.id = id) →
      deleteTea teas id = (204, teas.filter (fun t => t.id != id)))
    ∧ ((∀ t ∈ teas, t.id ≠ id) → deleteTea teas id = (404, teas)) := by
  constructor
  · rintro ⟨t0, ht0, hteq⟩
    have hfind : teas.find? (fun t => t.id == id) ≠ none := by
      intro hnone
      rw [List.find?_eq_none] at hnone
      exact hnone t0 ht0 (by simp [hteq])
    unfold deleteTea
    rw [if_neg hid]
    cases hf : teas.find? (fun t => t.id == id) with
    | none => exact absurd hf hfind
    | some t => rfl
  · intro hall
    have hfind : teas.find? (fun t => t.id == id) = none := by
      rw [List.find?_eq_none]
      intro x hx
      simp [hall x hx]
    unfold deleteTea
    rw [if_neg hid, hfind]

/-- A concrete schema-valid tea record used to instantiate the theorems. -/
def sampleTea : Tea :=
  { id := "1", name := "Sample", type := "Green", image := "", steepTimes := [5],
    caffeine := "", caffeineLevel := "Low", website := "", brewingTemperature := "",
    teaWeight := "", rating := none, timesConsumed := 0, lastConsumedDate := none }

/-- C6 witness: deleting the only tea of a singleton collection. -/
theorem C6_witness : deleteTea [sampleTea] "1" = (204, ([] : List Tea)) := by
  have h := (C6_deleteTea_spec [sampleTea] "1" (by decide)).1
    ⟨sampleTea, List.mem_singleton.mpr rfl, rfl⟩
  rw [h]; decide

/-- C2: with a schema-valid stored collection, `PUT /api/teas/:id/lastConsumed`
answers 200 when a tea matches the id, replacing exactly the matched tea by
a copy whose consumption count grew by one and whose `lastConsumedDate` is
the current time (all other fields and teas untouched, via `List.set`), and
answers 404 with the collection unchanged when no tea matches. -/
theorem C2_putLastConsumed_spec (teas : List Tea) (id : String) (now : ℚ)
    (hid : id ≠ "") (hvalid : ∀ t ∈ teas, teaValid t = true) :
    ((∃ t ∈ teas, t.id = id) →
      ∃ i t, teas[i]? = some t ∧ t.id = id ∧
        putLastConsumed teas id now =
          (200, teas.set i { t with timesConsumed := t.timesConsumed + 1,
                                    lastConsumedDate := some now }))
    ∧ ((∀ t ∈ teas, t.id ≠ id) → putLastConsumed teas id now = (404, teas)) := by
  constructor
  · rintro ⟨t0, ht0, hteq⟩
    have hex : ∃ x ∈ teas, (fun t : Tea => t.id == id) x = true :=
      ⟨t0, ht0, by simp [hteq]⟩
    have hlt := List.findIdx_lt_length_of_exists hex
    have hfind := List.findIdx?_eq_some_of_exists hex
    have hp : (teas[teas.findIdx (fun t : Tea => t.id == id)].id == id) = true :=
      List.findIdx_getElem (w := hlt)
    refine ⟨teas.findIdx (fun t : Tea => t.id == id),
      teas[teas.findIdx (fun t : Tea => t.id == id)],
      List.getElem?_eq_getElem hlt, by simpa using hp, ?_⟩
    have hv : teaValid teas[teas.findIdx (fun t : Tea => t.id == id)] = true :=
      hvalid _ (List.getElem_mem hlt)
    unfold putLastConsumed
    rw [if_neg hid, hfind]
    simp only [List.getElem?_eq_getElem hlt, jsOrZero_eq]
    exact if_pos hv
  · intro hall
    have hfind : teas.findIdx? (fun t : Tea => t.id == id) = none := by
      rw [List.findIdx?_eq_none_iff]
      intro x hx
      simp [hall x hx]
    unfold putLastConsumed
    rw [if_neg hid, hfind]

/-- C2 witness: consuming the only tea of a singleton collection. -/
theorem C2_witness :
    ∃ i t, ([sampleTea])[i]? = some t ∧ t.id = "1" ∧
      putLastConsumed [sampleTea] "1" 0 =
        (200, [sampleTea].set i { t with timesConsumed := t.timesConsumed + 1,
                                         lastConsumedDate := some 0 }) :=
  (C2_putLastConsumed_spec [sampleTea] "1" 0 (by decide) (by decide)).1
    ⟨sampleTea, List.mem_singleton.mpr rfl, rfl⟩

/-- C5: for every request to an `/api` path other than `/api/auth/login`,
a missing Authorization header, a header that does not start with
`Bearer `, or a bearer token that `jwt.verify` rejects as expired or
invalid makes the server answer 401 without running the route handler, so
the stored collection is untouched (the result does not depend on
`handler` at all). -/
theorem C5_requireAuth_gate (path : String) (authHeader : Option String)
    (verify : String → VerifyResult) (loginStatus : Nat)
    (handler : List Tea → Nat × List Tea) (teas : List Tea)
    (hpath : underApi path = true) (hlogin : path ≠ "/api/auth/login")
    (hbad : authHeader = none
      ∨ ∃ h, authHeader = some h ∧ (¬ strStartsWith h "Bearer "
          ∨ verify (strDropChars h 7) = .expired
          ∨ verify (strDropChars h 7) = .invalid)) :
    apiDispatch path authHeader verify loginStatus handler teas = (401, teas) := by
  have hauth : requireAuth authHeader verify = .reject 401 := by
    rcases hbad with h | ⟨hdr, hh, hb⟩
    · rw [h]; rfl
    · subst hh
      simp only [requireAuth]
      by_cases hc : hdr = "" ∨ ¬ strStartsWith hdr "Bearer " = true
      · rw [if_pos hc]
      · rw [if_neg hc]
        rcases hb with hb | hb | hb
        · exact absurd (Or.inr (by simpa using hb)) hc
        · rw [hb]
        · rw [hb]
  unfold apiDispatch
  rw [if_neg hlogin, if_pos hpath, hauth]

/-- C5 witness: a tokenless request to `/api/teas` is rejected with 401 and
the collection survives unchanged, whatever the handler would have done. -/
theorem C5_witness :
    apiDispatch "/api/teas" none (fun _ => VerifyResult.invalid) 200
      (fun _ => (204, [])) [sampleTea] = (401, [sampleTea]) :=
  C5_requireAuth_gate "/api/teas" none (fun _ => VerifyResult.invalid) 200
    (fun _ => (204, [])) [sampleTea] (by decide) (by decide) (Or.inl rfl)

theorem isPrivateIP_eq_true (hostname : String)
    (h : (hostname = "localhost" ∨ hostname = "localhost.localdomain")
       ∨ ("127.".toList.isPrefixOf hostname.toList = true
          ∨ "10.".toList.isPrefixOf hostname.toList = true
          ∨ matches172 hostname.toList = true
          ∨ "192.168.".toList.isPrefixOf hostname.toList = true
          ∨ "169.254.".toList.isPrefixOf hostname.toList = true)
       ∨ (hostname = "::1" ∨ hostname = "::"
          ∨ "fc".toList.isPrefixOf hostname.toList = true
          ∨ "fd".toList.isPrefixOf hostname.toList = true)) :
    isPrivateIP hostname = true := by
  unfold isPrivateIP
  split_ifs with h1 h2 h3
  · rfl
  · rfl
  · rfl
  · exact absurd h (by tauto)

theorem isPrivateIP_dotted (a b c d : Nat)
    (hrange : a = 127 ∨ a = 10 ∨ (a = 172 ∧ 16 ≤ b ∧ b ≤ 31)
      ∨ (a = 192 ∧ b = 168) ∨ (a = 169 ∧ b = 254)) :
    isPrivateIP (toString a ++ "." ++ toString b ++ "." ++ toString c ++ "." ++ toString d)
      = true := by
  have htos : ∀ n : Nat, toString n = Nat.repr n := fun _ => rfl
  have hdata : (toString a ++ "." ++ toString b ++ "." ++ toString c ++ "." ++ toString d).toList
      = (Nat.repr a).data ++ '.' :: ((Nat.repr b).data ++ '.' ::
          ((Nat.repr c).data ++ '.' :: (Nat.repr d).data)) := by
    simp [String.toList, String.data_append, htos]
  apply isPrivateIP_eq_true
  refine Or.inr (Or.inl ?_)
  rcases hrange with h | h | ⟨h, hb1, hb2⟩ | ⟨h, hb⟩ | ⟨h, hb⟩
  · subst h; left; rw [hdata]
    simp +decide [Nat.repr, Nat.toDigits, Nat.toDigitsCore, Nat.digitChar, List.asString,
      List.isPrefixOf, String.toList]
  · subst h; right; left; rw [hdata]
    simp +decide [Nat.repr, Nat.toDigits, Nat.toDigitsCore, Nat.digitChar, List.asString,
      List.isPrefixOf, String.toList]
  · subst h; right; right; left; rw [hdata]
    interval_cases b <;>
      simp +decide [Nat.repr, Nat.toDigits, Nat.toDigitsCore, Nat.digitChar, List.asString,
        matches172]
  · subst h; subst hb; right; right; right; left; rw [hdata]
    simp +decide [Nat.repr, Nat.toDigits, Nat.toDigitsCore, Nat.digitChar, List.asString,
      List.isPrefixOf, String.toList]
  · subst h; subst hb; right; right; right; right; rw [hdata]
    simp +decide [Nat.repr, Nat.toDigits, Nat.toDigitsCore, Nat.digitChar, List.asString,
      List.isPrefixOf, String.toList]

/-- C1: every import request whose url value is not a string, is empty or
blank, fails URL parsing, has a protocol other than http/https, or has an
empty, localhost, private/loopback-IPv4 (dotted decimal in 127/8, 10/8,
172.16/12, 192.168/16, 169.254/16), or IPv6-private (`::1`, `::`, or
starting with `fc`/`fd`) hostname is answered 400 and the outbound fetch
is never performed. -/
theorem C1_import_ssrf_guard (body : JsValue) (parseURL : String → Option ParsedURL)
    (fetchStatus : Nat)
    (hbad :
      (∀ s, jsGet body "url" ≠ some (.str s))
      ∨ ∃ s, jsGet body "url" = some (.str s) ∧
          (s = "" ∨ jsTrim s = ""
           ∨ parseURL s = none
           ∨ ∃ p, parseURL s = some p ∧
              (¬ (p.protocol = "http:" ∨ p.protocol = "https:")
               ∨ p.hostname = ""
               ∨ p.hostname = "localhost" ∨ p.hostname = "localhost.localdomain"
               ∨ (∃ a b c d : Nat, a ≤ 255 ∧ b ≤ 255 ∧ c ≤ 255 ∧ d ≤ 255 ∧
                    p.hostname = toString a ++ "." ++ toString b ++ "." ++ toString c
                      ++ "." ++ toString d ∧
                    (a = 127 ∨ a = 10 ∨ (a = 172 ∧ 16 ≤ b ∧ b ≤ 31)
                      ∨ (a = 192 ∧ b = 168) ∨ (a = 169 ∧ b = 254)))
               ∨ p.hostname = "::1" ∨ p.hostname = "::"
               ∨ (∃ r, p.hostname.toList = 'f' :: 'c' :: r)
               ∨ (∃ r, p.hostname.toList = 'f' :: 'd' :: r)))) :
    importRequest body parseURL fetchStatus = (400, false) := by
  have hval : validateURLForSSRF (jsGet body "url") parseURL = false := by
    rcases hbad with hns | ⟨s, hs, hrest⟩
    · cases hu : jsGet body "url" with
      | none => rfl
      | some v =>
        cases v with
        | str s => exact absurd hu (hns s)
        | null => rfl
        | bool b => rfl
        | num q => rfl
        | arr xs => rfl
        | obj fs => rfl
    · rw [hs]
      simp only [validateURLForSSRF]
      by_cases hemp : s = "" ∨ jsTrim s = ""
      · rw [if_pos hemp]
      · rw [if_neg hemp]
        rcases hrest with he | he | hp | ⟨p, hp, hbadp⟩
        · exact absurd (Or.inl he) hemp
        · exact absurd (Or.inr he) hemp
        · rw [hp]
        · rw [hp]
          show hostCheck p = false
          unfold hostCheck
          by_cases hproto : p.protocol = "http:" ∨ p.protocol = "https:"
          · rw [if_neg (not_not_intro hproto)]
            by_cases hhost : p.hostname = ""
            · rw [if_pos hhost]
            · rw [if_neg hhost]
              have hpriv : isPrivateIP p.hostname = true := by
                rcases hbadp with h | h | h | h | h | h | h | h | h
                · exact absurd hproto h
                · exact absurd h hhost
                · exact isPrivateIP_eq_true _ (Or.inl (Or.inl h))
                · exact isPrivateIP_eq_true _ (Or.inl (Or.inr h))
                · obtain ⟨a, b, c, d, _, _, _, _, heq, hr⟩ := h
                  rw [heq]; exact isPrivateIP_dotted a b c d hr
                · exact isPrivateIP_eq_true _ (Or.inr (Or.inr (Or.inl h)))
                · exact isPrivateIP_eq_true _ (Or.inr (Or.inr (Or.inr (Or.inl h))))
                · obtain ⟨r, hr⟩ := h
                  exact isPrivateIP_eq_true _
                    (Or.inr (Or.inr (Or.inr (Or.inr (Or.inl
                      (by rw [hr]; simp +decide [List.isPrefixOf, String.toList]))))))
                · obtain ⟨r, hr⟩ := h
                  exact isPrivateIP_eq_true _
                    (Or.inr (Or.inr (Or.inr (Or.inr (Or.inr
                      (by rw [hr]; simp +decide [List.isPrefixOf, String.toList]))))))
              rw [if_pos hpriv]
          · rw [if_pos hproto]
  simp [importRequest, hval]

/-- C1 witness: an import request for a loopback-address URL is rejected
with 400 and no fetch happens. -/
theorem C1_witness :
    importRequest (.obj [("url", .str "http://127.0.0.1/")])
      (fun _ => some ⟨"http:", "127.0.0.1"⟩) 200 = (400, false) :=
  C1_import_ssrf_guard (.obj [("url", .str "http://127.0.0.1/")])
    (fun _ => some ⟨"http:", "127.0.0.1"⟩) 200
    (Or.inr ⟨"http://127.0.0.1/", rfl,
      Or.inr (Or.inr (Or.inr ⟨⟨"http:", "127.0.0.1"⟩, rfl,
        Or.inr (Or.inr (Or.inr (Or.inr (Or.inl
          ⟨127, 0, 0, 1, by decide, by decide, by decide, by decide,
            by decide, Or.inl rfl⟩))))⟩))⟩)

/-- C4: the caffeine classifier always lands in `{Low, Medium, High}`; a
leftmost `less than X%` match classifies by `X ≤ 10 / X ≤ 25`; otherwise a
leftmost (`about`) `X%` match classifies by `X < 10 / X < 25`; otherwise
the keywords `high`, `low`, `medium`/`moderate` decide in that order, and
with no indicator at all the result is `Low`. -/
theorem C4_caffeineLevel_spec (s : String) :
    (caffeineLevel s = "Low" ∨ caffeineLevel s = "Medium" ∨ caffeineLevel s = "High")
    ∧ (∀ x, findLess (lowerL s.toList) = some x →
        caffeineLevel s = if x ≤ 10 then "Low" else if x ≤ 25 then "Medium" else "High")
    ∧ (findLess (lowerL s.toList) = none →
        ∀ x, findPercent (lowerL s.toList) = some x →
          caffeineLevel s = if x < 10 then "Low" else if x < 25 then "Medium" else "High")
    ∧ (findLess (lowerL s.toList) = none → findPercent (lowerL s.toList) = none →
        caffeineLevel s =
          if containsSub "high".toList (lowerL s.toList) then "High"
          else if containsSub "low".toList (lowerL s.toList) then "Low"
          else if containsSub "medium".toList (lowerL s.toList)
              || containsSub "moderate".toList (lowerL s.toList) then "Medium"
          else "Low") := by
  have hdef : caffeineLevel s =
      (match findLess (lowerL s.toList) with
       | some percentage =>
           if percentage ≤ 10 then "Low"
           else if percentage ≤ 25 then "Medium"
           else "High"
       | none =>
           match findPercent (lowerL s.toList) with
           | some percentage =>
               if percentage < 10 then "Low"
               else if percentage < 25 then "Medium"
               else "High"
           | none =>
               if containsSub "high".toList (lowerL s.toList) then "High"
               else if containsSub "low".toList (lowerL s.toList) then "Low"
               else if containsSub "medium".toList (lowerL s.toList)
                   || containsSub "moderate".toList (lowerL s.toList) then "Medium"
               else "Low") := rfl
  refine ⟨?_, ?_, ?_, ?_⟩
  · rw [hdef]
    cases findLess (lowerL s.toList) with
    | some x =>
        by_cases h1 : x ≤ 10
        · simp [h1]
        · by_cases h2 : x ≤ 25 <;> simp [h1, h2]
    | none =>
        cases findPercent (lowerL s.toList) with
        | some x =>
            by_cases h1 : x < 10
            · simp [h1]
            · by_cases h2 : x < 25 <;> simp [h1, h2]
        | none =>
            by_cases h1 : containsSub "high".toList (lowerL s.toList) = true
            · rw [if_pos h1]; simp
            · rw [if_neg h1]
              by_cases h2 : containsSub "low".toList (lowerL s.toList) = true
              · rw [if_pos h2]; simp
              · rw [if_neg h2]
                by_cases h3 : (containsSub "medium".toList (lowerL s.toList)
                    || containsSub "moderate".toList (lowerL s.toList)) = true
                · rw [if_pos h3]; simp
                · rw [if_neg h3]; simp
  · intro x hx; rw [hdef, hx]
  · intro hn x hx; rw [hdef, hn, hx]
  · intro hn hp; rw [hdef, hn, hp]

/-- C4 witness: a `less than 5%` text classifies as `Low`. -/
theorem C4_witness :
    caffeineLevel "less than 5% of a cup of coffee" = "Low"
    ∧ findLess (lowerL "less than 5% of a cup of coffee".toList) = some 5 := by
  constructor
  · have h := (C4_caffeineLevel_spec "less than 5% of a cup of coffee").2.1 5 (by decide)
    simpa using h
  · decide

/-- C9: the `steepTimes` list of every successful import response is sorted
ascending and every entry lies between 3 and 999 seconds. -/
theorem C9_steepTimes_sorted_bounded (steepsTd : Option (List Char)) :
    List.Sorted (· ≤ ·) (importSteepTimes steepsTd)
    ∧ ∀ n ∈ importSteepTimes steepsTd, 3 ≤ n ∧ n ≤ 999 := by
  constructor
  · exact List.sorted_mergeSort' _
  · intro n hn
    unfold importSteepTimes at hn
    rw [List.mem_mergeSort] at hn
    cases steepsTd with
    | none => simp at hn
    | some td =>
        simp only at hn
        unfold extractSteepTimesFromTd at hn
        rcases hidx : indexOfSub "steeps:".toList (lowerL td) with _ | i <;> rw [hidx] at hn
        · simp at hn
        · simp only [List.mem_filter] at hn
          have := hn.2
          simp only [Bool.and_eq_true, decide_eq_true_eq] at this
          exact this

/-- C9 witness: an out-of-order steeps cell yields a sorted response list
whose member 5 is within bounds. -/
theorem C9_witness :
    3 ≤ 5 ∧ 5 ≤ 999 :=
  (C9_steepTimes_sorted_bounded (some "Steeps: 10s, 5s, 1000s".toList)).2 5
    (by unfold importSteepTimes; rw [List.mem_mergeSort]; decide)

theorem parseCreateTea_fields (v : JsValue) (d : CreateTea) (h : parseCreateTea v = some d) :
    parseTimesConsumed (jsGet v "timesConsumed") = some d.timesConsumed
    ∧ parseLastConsumed (jsGet v "lastConsumedDate") = some d.lastConsumedDate := by
  cases v with
  | obj fs =>
      simp only [parseCreateTea, Option.bind_eq_some, Option.some.injEq, bind, pure] at h
      obtain ⟨name, h1, type, h2, image, h3, st, h4, caf, h5, cl, h6, web, h7,
        bt, h8, tw, h9, r, h10, tc, h11, lcd, h12, heq⟩ := h
      subst heq
      exact ⟨h11, h12⟩
  | null => simp [parseCreateTea] at h
  | bool b => simp [parseCreateTea] at h
  | num q => simp [parseCreateTea] at h
  | str s => simp [parseCreateTea] at h
  | arr xs => simp [parseCreateTea] at h

/-- C3, amended: `POST /api/teas` answers 400 on a falsy body; when the
body's `type` field is a string, it answers 201 and appends exactly the
parsed tea (with the schema defaults `timesConsumed = 0` and
`lastConsumedDate = null` when those keys are omitted) precisely when the
normalised body satisfies `CreateTeaSchema`, and 400 with the collection
unchanged when the schema rejects it; when the body's `type` field is
missing or not a string, `normalizeTeaType` throws and the endpoint
answers 500, again leaving the collection unchanged. -/
theorem C3_postTeas_amended (teas : List Tea) (body : Option JsValue) (newId : String) :
    (body = none → postTeas teas body newId = (400, teas))
    ∧ (∀ b, body = some b → jsFalsy b = true → postTeas teas body newId = (400, teas))
    ∧ (∀ b s d, body = some b → jsFalsy b = false → jsGet b "type" = some (.str s) →
        parseCreateTea (objSet b "type" (.str (normalizeTeaType s))) = some d →
        postTeas teas body newId = (201, teas ++ [mkNewTea d newId]))
    ∧ (∀ b s, body = some b → jsFalsy b = false → jsGet b "type" = some (.str s) →
        parseCreateTea (objSet b "type" (.str (normalizeTeaType s))) = none →
        postTeas teas body newId = (400, teas))
    ∧ (∀ b, body = some b → jsFalsy b = false → (∀ s, jsGet b "type" ≠ some (.str s)) →
        postTeas teas body newId = (500, teas))
    ∧ (∀ nb d, parseCreateTea nb = some d →
        (jsGet nb "timesConsumed" = none → d.timesConsumed = 0)
        ∧ (jsGet nb "lastConsumedDate" = none → d.lastConsumedDate = none)) := by
  refine ⟨?_, ?_, ?_, ?_, ?_, ?_⟩
  · intro h; rw [h]; rfl
  · intro b hb hf; subst hb
    simp only [postTeas]
    rw [if_pos hf]
  · intro b s d hb hf hty hparse; subst hb
    simp only [postTeas]
    rw [if_neg (by simp [hf]), hty]
    show (match parseCreateTea (objSet b "type" (JsValue.str (normalizeTeaType s))) with
      | some d => (201, teas ++ [mkNewTea d newId])
      | none => (400, teas)) = (201, teas ++ [mkNewTea d newId])
    rw [hparse]
  · intro b s hb hf hty hparse; subst hb
    simp only [postTeas]
    rw [if_neg (by simp [hf]), hty]
    show (match parseCreateTea (objSet b "type" (JsValue.str (normalizeTeaType s))) with
      | some d => (201, teas ++ [mkNewTea d newId])
      | none => (400, teas)) = (400, teas)
    rw [hparse]
  · intro b hb hf hns; subst hb
    simp only [postTeas]
    rw [if_neg (by simp [hf])]
  · intro nb d hp
    have hf := parseCreateTea_fields nb d hp
    constructor
    · intro habs; rw [habs] at hf
      have := hf.1
      simp only [parseTimesConsumed, Option.some.injEq] at this
      omega
    · intro habs; rw [habs] at hf
      have := hf.2
      simp only [parseLastConsumed, Option.some.injEq] at this
      exact this.symm

/-- C3 counterexample body: `type` is absent, so the creation schema
rejects it, yet the endpoint answers 500 rather than the claimed 400
(`normalizeTeaType(undefined)` throws a `TypeError` caught by the outer
handler). -/
def noTypeBody : JsValue :=
  .obj [("name", .str "T"), ("image", .str ""), ("steepTimes", .arr [])]

/-- C3 counterexample: a schema-rejected body for which `POST /api/teas`
answers 500, not 400 (the collection still does not change). -/
theorem C3_counterexample :
    parseCreateTea noTypeBody = none
    ∧ postTeas [] (some noTypeBody) "1" = (500, [])
    ∧ (500 : Nat) ≠ 400 :=
  ⟨rfl, rfl, by decide⟩

/-- C3 witness: a well-formed creation body is accepted with 201 and the
parsed tea (with defaulted consumption fields) is appended. -/
theorem C3_witness :
    postTeas [] (some (.obj [("name", .str "T"), ("type", .str "green"),
      ("image", .str ""), ("steepTimes", .arr [.num 5])])) "1"
      = (201, [{ id := "1", name := "T", type := "Green", image := "",
                 steepTimes := [5], caffeine := "", caffeineLevel := "Low",
                 website := "", brewingTemperature := "", teaWeight := "",
                 rating := none, timesConsumed := 0, lastConsumedDate := none }]) := by
  have h := (C3_postTeas_amended [] (some (.obj [("name", .str "T"),
      ("type", .str "green"), ("image", .str ""), ("steepTimes", .arr [.num 5])])) "1").2.2.1
    (.obj [("name", .str "T"), ("type", .str "green"), ("image", .str ""),
      ("steepTimes", .arr [.num 5])])
    "green"
    { name := "T", type := "Green", image := "", steepTimes := [5], caffeine := "",
      caffeineLevel := "Low", website := "", brewingTemperature := "", teaWeight := "",
      rating := none, timesConsumed := 0, lastConsumedDate := none }
    rfl rfl rfl (by rfl)
  simpa using h

theorem asNums_map_num (qs : List ℚ) : asNums (qs.map .num) = some qs := by
  induction qs with
  | nil => rfl
  | cons q rest ih => simp [asNums, ih]

theorem parseTea_teaToValue (t : Tea) (h : teaValid t = true) :
    parseTea (teaToValue t) = some t := by
  obtain ⟨id, name, ty, img, st, caf, cl, web, bt, tw, r, tc, lcd⟩ := t
  rcases r with _ | _ | q <;> rcases lcd with _ | q' <;>
    simp only [teaValid, ratingOk, Bool.and_eq_true, decide_eq_true_eq, and_true,
      List.elem_iff] at h <;>
    simp [parseTea, teaToValue, ratingFields, jsGet, asStr, parseEnum, parseSteepTimes,
      asNums_map_num, parseRating, parseTimesConsumed, parseLastConsumed,
      h, Rat.den_natCast, Rat.num_natCast, Int.toNat_natCast]

theorem parseTeaList_map (ts : List Tea) (h : ∀ t ∈ ts, teaValid t = true) :
    parseTeaList (ts.map teaToValue) = some ts := by
  induction ts with
  | nil => rfl
  | cons t rest ih =>
      simp [parseTeaList, parseTea_teaToValue t (h t (by simp)),
        ih (fun x hx => h x (by simp [hx]))]

/-- C7: writing a schema-valid collection with `writeTeas` and reading it
back with `readTeas` (dump, load, validate) recovers exactly the written
collection. -/
theorem C7_write_read_roundtrip (teas : List Tea)
    (hvalid : ∀ t ∈ teas, teaValid t = true) :
    readTeas (some (writeTeasDoc teas)) = Except.ok teas := by
  simp [readTeas, writeTeasDoc, parseTeas, parseTeaList_map teas hvalid]

/-- C7 witness: the singleton collection round-trips. -/
theorem C7_witness :
    readTeas (some (writeTeasDoc [sampleTea])) = Except.ok [sampleTea] :=
  C7_write_read_roundtrip [sampleTea] (by decide)

end TeaApp
